import Mathlib

/-!
Verification of the twitter-pun-archiver repository (src/utils.py and
src/pun-archiver.py): a shallow embedding of its data model and operations,
followed by theorems settling the spec's claims.
-/

set_option linter.unusedVariables false

/-! ## Data model -/

/-- A post fetched from the source account: numeric id, raw text, and the
created_at timestamp string in the source's ISO format. -/
structure Tweet where
  id : Nat
  text : String
  created_at : String
deriving DecidableEq, Repr

/-- One structured edit sent to the destination document, mirroring the
request bodies built in doc_add_text, doc_format_text and
doc_italicize_punchline in src/utils.py. -/
inductive DocEdit where
  | insertText (index : Nat) (text : String)
  | paragraphStyle (startIdx endIdx : Nat)
  | italicize (startIdx endIdx : Nat)
deriving DecidableEq, Repr

/-- An observable event of a run: a document edit, a watermark save
(save_last_seen_id in src/utils.py), or a console message. -/
inductive Event where
  | docEdit (e : DocEdit)
  | saveLastSeenId (id : Nat)
  | printMsg (s : String)
deriving DecidableEq, Repr

/-! ## Pattern matcher

src/utils.py line 39: pun_format_regex = re.compile of the pattern
dot-plus, two newlines, dot-plus dollar, used with re.match (anchored at the
start of the string).  Since the dot of the pattern never matches a newline,
group 1 is exactly the first line of the text, which must be followed by two
newlines; group 2 is the run of non-newline characters after them, and the
dollar anchor then requires the end of the string, optionally preceded by a
single final newline. -/

/-- Result of pun_format_regex.match on the tweet text: some (setup,
punchline) when the regex matches, none otherwise. -/
def pun_format_regex_match (text : String) : Option (String × String) :=
  match text.toList.dropWhile (fun c => c ≠ '\n') with
  | '\n' :: '\n' :: tail =>
      if text.toList.takeWhile (fun c => c ≠ '\n') ≠ [] ∧
         tail.takeWhile (fun c => c ≠ '\n') ≠ [] ∧
         (tail.dropWhile (fun c => c ≠ '\n') = [] ∨
          tail.dropWhile (fun c => c ≠ '\n') = ['\n']) then
        some (String.mk (text.toList.takeWhile (fun c => c ≠ '\n')),
              String.mk (tail.takeWhile (fun c => c ≠ '\n')))
      else none
  | _ => none

/-- A tweet whose text matches the pun pattern. -/
def pun_matches (t : Tweet) : Bool :=
  (pun_format_regex_match t.text).isSome

/-! ## Formatter and date rendering -/

/-- Fixed structural offset constant, src/utils.py line 37. -/
def ITALICS_OFFSET : Nat := 9

/-- format_tweet from src/utils.py: date, newline, setup, newline-tab,
punchline, two newlines. -/
def format_tweet (date setup punchline : String) : String :=
  date ++ "\n" ++ setup ++ "\n\t" ++ punchline ++ "\n\n"

/-- Net effect of datetime.strptime on the source timestamp format followed
by strftime to MM/DD/YYYY (src/utils.py lines 59-60): the timestamp string
is YYYY-MM-DDT... with zero-padded fields, so the rendered date is month,
slash, day, slash, year taken from its fixed character positions. -/
def strftime_date (created_at : String) : String :=
  let cs := created_at.toList
  String.mk ((cs.drop 5).take 2) ++ "/" ++ String.mk ((cs.drop 8).take 2)
    ++ "/" ++ String.mk (cs.take 4)

/-! ## Year header -/

/-- Numeric value of a string of decimal digits. -/
def parseNatDigits (cs : List Char) : Nat :=
  cs.foldl (fun a c => a * 10 + (c.toNat - 48)) 0

/-- Year field of a last-run date in MM/DD/YYYY form, as obtained by
datetime.strptime in doc_update_year (src/utils.py line 236). -/
def date_year (d : String) : Nat :=
  parseNatDigits (d.toList.drop 6)

/-- doc_update_year from src/utils.py: when the last run's year is earlier
than the current year, one insert of the year string and a newline at
document position 1; otherwise no edit. -/
def doc_update_year (last_run_date : String) (now_year : Nat) : List DocEdit :=
  if date_year last_run_date < now_year then
    [DocEdit.insertText 1 (toString now_year ++ "\n")]
  else []

/-! ## Archiver -/

/-- The document edits and watermark save performed for one matched tweet,
src/utils.py lines 64-73: insert the formatted text at position 6, set the
paragraph style over the full inserted span, italicize the punchline span,
then save the tweet id as the last seen id. -/
def post_edits (date setup punchline : String) (id : Nat) : List Event :=
  [ Event.docEdit (DocEdit.insertText 6 (format_tweet date setup punchline)),
    Event.docEdit (DocEdit.paragraphStyle 6
      ((date ++ setup ++ punchline).length + ITALICS_OFFSET)),
    Event.docEdit (DocEdit.italicize
      ((date ++ setup).length + ITALICS_OFFSET)
      ((date ++ setup ++ punchline).length + ITALICS_OFFSET)),
    Event.saveLastSeenId id ]

/-- Body of the archive loop for one tweet, src/utils.py lines 52-73: a
tweet whose text does not match the pun pattern produces no events; a
matching tweet produces its document edits followed by its watermark save. -/
def archive_one (t : Tweet) : List Event :=
  match pun_format_regex_match t.text with
  | none => []
  | some (setup, punchline) =>
      post_edits (strftime_date t.created_at) setup punchline t.id

/-- archive_tweets from src/utils.py: first the conditional year-header
edit, then the fetched page iterated in reverse, each tweet processed by
the loop body. -/
def archive_tweets (last_run_date : String) (now_year : Nat)
    (data : List Tweet) : List Event :=
  (doc_update_year last_run_date now_year).map Event.docEdit
    ++ data.reverse.flatMap archive_one

/-! ## Fetch and main -/

/-- Models the fetch of get_tweets (src/utils.py lines 120-137): the request
passes since_id equal to the stored last seen id, and the source API
contract returns only posts with id strictly greater than since_id. -/
def get_tweets (source_posts : List Tweet) (last_seen_id : Nat) : List Tweet :=
  source_posts.filter (fun t => last_seen_id < t.id)

/-- A fetch response as consumed by main in src/pun-archiver.py: the meta
result count and the page of tweets. -/
structure FetchResponse where
  result_count : Nat
  data : List Tweet
deriving DecidableEq, Repr

/-- main from src/pun-archiver.py, as its return value (Python returns 1 on
failed authentication and None otherwise) paired with the run's events.  The
authentication outcome is a parameter: the source client is an external
collaborator that, per the spec, yields a sentinel none when credentials are
invalid. -/
def main_run (client : Option Unit) (resp : FetchResponse)
    (last_seen_id : Nat) (last_run_date : String) (now_year : Nat) :
    Option Nat × List Event :=
  match client with
  | none => (some 1, [])
  | some _ =>
    let ev0 := [Event.printMsg ("Last seen tweet ID: " ++ toString last_seen_id)]
    if resp.result_count = 0 then
      (none, ev0 ++ [Event.printMsg "No new tweets found."])
    else
      (none, ev0 ++ archive_tweets last_run_date now_year resp.data)

/-- Process exit status of the script: the top-level block of
src/pun-archiver.py calls main() and discards its return value, so the
process ends the script normally with status 0 regardless of what main
returned. -/
def script_exit_status (client : Option Unit) (resp : FetchResponse)
    (last_seen_id : Nat) (last_run_date : String) (now_year : Nat) : Nat :=
  let _discarded := main_run client resp last_seen_id last_run_date now_year
  0

/-! ## Observers on event traces -/

/-- The ids written by watermark saves, in order. -/
def saved_ids (events : List Event) : List Nat :=
  events.filterMap (fun e => match e with
    | Event.saveLastSeenId i => some i
    | _ => none)

/-- The document edits of a trace, in order. -/
def doc_edits (events : List Event) : List DocEdit :=
  events.filterMap (fun e => match e with
    | Event.docEdit d => some d
    | _ => none)

/-- The texts inserted at the fixed post position 6, in order. -/
def inserted_posts (events : List Event) : List String :=
  events.filterMap (fun e => match e with
    | Event.docEdit (DocEdit.insertText 6 txt) => some txt
    | _ => none)

/-- The watermark after a trace, starting from an initial value: each save
overwrites it. -/
def final_watermark (w0 : Nat) (events : List Event) : Nat :=
  events.foldl (fun w e => match e with
    | Event.saveLastSeenId i => i
    | _ => w) w0

/-- The rendered document text of a tweet, as inserted by the archive loop
when the tweet matches. -/
def rendered (t : Tweet) : String :=
  match pun_format_regex_match t.text with
  | none => ""
  | some (setup, punchline) =>
      format_tweet (strftime_date t.created_at) setup punchline

example : pun_format_regex_match "a\n\nb" = some ("a", "b") := by decide
example : pun_format_regex_match "a\n\nb\n" = some ("a", "b") := by decide
example : pun_format_regex_match "a\n\nb\n\nc" = none := by decide
example : pun_format_regex_match "a\nb\n\nc" = none := by decide
example : pun_format_regex_match "no pun" = none := by decide
example : strftime_date "2024-01-02T00:00:00.000Z" = "01/02/2024" := by decide
example : date_year "12/31/2023" = 2023 := by decide

/-! ## Helper lemmas about the archive trace -/

theorem saved_ids_append (a b : List Event) :
    saved_ids (a ++ b) = saved_ids a ++ saved_ids b :=
  List.filterMap_append a b _

theorem doc_edits_append (a b : List Event) :
    doc_edits (a ++ b) = doc_edits a ++ doc_edits b :=
  List.filterMap_append a b _

theorem inserted_posts_append (a b : List Event) :
    inserted_posts (a ++ b) = inserted_posts a ++ inserted_posts b :=
  List.filterMap_append a b _

theorem saved_ids_archive_one (t : Tweet) :
    saved_ids (archive_one t) = if pun_matches t then [t.id] else [] := by
  unfold archive_one pun_matches
  cases h : pun_format_regex_match t.text with
  | none => simp [saved_ids, h]
  | some sp =>
      cases sp with
      | mk s p => simp [saved_ids, post_edits, h]

theorem saved_ids_flatMap (l : List Tweet) :
    saved_ids (l.flatMap archive_one) = (l.filter pun_matches).map Tweet.id := by
  induction l with
  | nil => rfl
  | cons t rest ih =>
      rw [List.flatMap_cons, saved_ids_append, saved_ids_archive_one, ih]
      by_cases hm : pun_matches t <;> simp [List.filter_cons, hm]

theorem saved_ids_doc_map (l : List DocEdit) :
    saved_ids (l.map Event.docEdit) = [] := by
  induction l with
  | nil => rfl
  | cons d rest ih => simp [saved_ids] at ih ⊢

theorem saved_ids_archive (d : String) (y : Nat) (data : List Tweet) :
    saved_ids (archive_tweets d y data)
      = ((data.filter pun_matches).map Tweet.id).reverse := by
  unfold archive_tweets
  rw [saved_ids_append, saved_ids_doc_map, saved_ids_flatMap,
    List.filter_reverse, List.map_reverse]
  rfl

/-- The last element of a list of saved ids, or a default: the value the
watermark holds after those saves. -/
def lastSavedD : List Nat → Nat → Nat
  | [], w => w
  | i :: rest, _ => lastSavedD rest i

theorem final_watermark_eq (w : Nat) (ev : List Event) :
    final_watermark w ev = lastSavedD (saved_ids ev) w := by
  induction ev generalizing w with
  | nil => rfl
  | cons e rest ih =>
      cases e with
      | saveLastSeenId i =>
          simpa [final_watermark, saved_ids, lastSavedD] using ih i
      | docEdit d =>
          simpa [final_watermark, saved_ids, lastSavedD] using ih w
      | printMsg s =>
          simpa [final_watermark, saved_ids, lastSavedD] using ih w

theorem lastSavedD_append_single (l : List Nat) (x w : Nat) :
    lastSavedD (l ++ [x]) w = x := by
  induction l generalizing w with
  | nil => rfl
  | cons a rest ih => simpa [lastSavedD] using ih a

theorem lastSavedD_reverse (l : List Nat) (w : Nat) :
    lastSavedD l.reverse w = (l.head?).getD w := by
  cases l with
  | nil => rfl
  | cons a m => rw [List.reverse_cons, lastSavedD_append_single]; rfl

theorem final_watermark_archive (d : String) (y : Nat) (w0 : Nat)
    (data : List Tweet) :
    final_watermark w0 (archive_tweets d y data)
      = ((data.filter pun_matches).head?.map Tweet.id).getD w0 := by
  rw [final_watermark_eq, saved_ids_archive, lastSavedD_reverse, List.head?_map]

theorem inserted_posts_archive_one (t : Tweet) :
    inserted_posts (archive_one t)
      = if pun_matches t then [rendered t] else [] := by
  unfold archive_one pun_matches rendered
  cases h : pun_format_regex_match t.text with
  | none => simp [inserted_posts, h]
  | some sp =>
      cases sp with
      | mk s p => simp [inserted_posts, post_edits, h]

theorem inserted_posts_flatMap (l : List Tweet) :
    inserted_posts (l.flatMap archive_one)
      = (l.filter pun_matches).map rendered := by
  induction l with
  | nil => rfl
  | cons t rest ih =>
      rw [List.flatMap_cons, inserted_posts_append, inserted_posts_archive_one, ih]
      by_cases hm : pun_matches t <;> simp [List.filter_cons, hm]

theorem inserted_posts_year (d : String) (y : Nat) :
    inserted_posts ((doc_update_year d y).map Event.docEdit) = [] := by
  unfold doc_update_year
  by_cases h : date_year d < y <;> simp [h, inserted_posts]

theorem inserted_posts_archive (d : String) (y : Nat) (data : List Tweet) :
    inserted_posts (archive_tweets d y data)
      = ((data.filter pun_matches).reverse).map rendered := by
  unfold archive_tweets
  rw [inserted_posts_append, inserted_posts_year, inserted_posts_flatMap,
    List.filter_reverse, List.map_reverse]
  simp

theorem saved_ids_archive_mem (d : String) (y : Nat) (data : List Tweet)
    (i : Nat) (h : i ∈ saved_ids (archive_tweets d y data)) :
    ∃ t, t ∈ data ∧ pun_matches t = true ∧ t.id = i := by
  rw [saved_ids_archive] at h
  rw [List.mem_reverse, List.mem_map] at h
  obtain ⟨t, ht, hid⟩ := h
  rw [List.mem_filter] at ht
  exact ⟨t, ht.1, ht.2, hid⟩

/-! ## Further helpers -/

theorem insert_at_one_not_mem_archive_one (t : Tweet) (txt : String) :
    Event.docEdit (DocEdit.insertText 1 txt) ∉ archive_one t := by
  unfold archive_one
  cases h : pun_format_regex_match t.text with
  | none => simp
  | some sp =>
      cases sp with
      | mk s p => simp [post_edits]

theorem insert_at_one_not_mem_flatMap (l : List Tweet) (txt : String) :
    Event.docEdit (DocEdit.insertText 1 txt) ∉ l.flatMap archive_one := by
  intro h
  rw [List.mem_flatMap] at h
  obtain ⟨t, _, hmem⟩ := h
  exact insert_at_one_not_mem_archive_one t txt hmem

/-! ## Claim theorems (first group) -/

/-- C7: for date 01/02/2024 (10 characters), setup Why did X (9), punchline
Because Y (9) and the fixed offset constant 9, the writer receives a
paragraph-style range ending at 37 = 10+9+9+9 and an italic range from
28 = 10+9+9 to 37. -/
theorem C7_offset_computation :
    post_edits "01/02/2024" "Why did X" "Because Y" 0 =
      [ Event.docEdit
          (DocEdit.insertText 6 "01/02/2024\nWhy did X\n\tBecause Y\n\n"),
        Event.docEdit (DocEdit.paragraphStyle 6 37),
        Event.docEdit (DocEdit.italicize 28 37),
        Event.saveLastSeenId 0 ] := by
  decide

/-- C6: on a fetch response with zero result count, main returns normally
(Python None), performs no document edit and no watermark save, reports
that no new tweets were found, and the process exits with status zero. -/
theorem C6_zero_results (resp : FetchResponse) (last_seen_id : Nat)
    (d : String) (y : Nat) (h : resp.result_count = 0) :
    (main_run (some ()) resp last_seen_id d y).1 = none ∧
    doc_edits (main_run (some ()) resp last_seen_id d y).2 = [] ∧
    saved_ids (main_run (some ()) resp last_seen_id d y).2 = [] ∧
    Event.printMsg "No new tweets found."
      ∈ (main_run (some ()) resp last_seen_id d y).2 ∧
    script_exit_status (some ()) resp last_seen_id d y = 0 := by
  simp [main_run, h, doc_edits, saved_ids, script_exit_status]

theorem C6_zero_results_witness :
    doc_edits (main_run (some ()) ⟨0, []⟩ 5 "06/01/2024" 2024).2 = [] :=
  (C6_zero_results ⟨0, []⟩ 5 "06/01/2024" 2024 rfl).2.1

/-- C9: when the source authentication yields the sentinel none, main
returns 1 before any fetch, but the top-level block of src/pun-archiver.py
calls main() and discards that return value, so the process exit status is
zero in every case — the claimed non-zero exit on authentication failure
never reaches the operating system. -/
theorem C9_exit_status :
    (main_run none ⟨1, []⟩ 0 "06/01/2024" 2024).1 = some 1 ∧
    (main_run none ⟨1, []⟩ 0 "06/01/2024" 2024).2 = [] ∧
    (∀ client resp last_seen_id d y,
      script_exit_status client resp last_seen_id d y = 0) := by
  exact ⟨rfl, rfl, fun _ _ _ _ _ => rfl⟩

/-- C5: when the current year strictly exceeds the stored last-run year,
the run's trace starts with exactly one insert of the year string and a
newline at position 1, and no later event of the run inserts at position 1;
when the years are equal, no event of the run inserts at position 1. -/
theorem C5_year_header (d : String) (y : Nat) (data : List Tweet) :
    (date_year d < y →
      archive_tweets d y data
        = Event.docEdit (DocEdit.insertText 1 (toString y ++ "\n"))
            :: data.reverse.flatMap archive_one ∧
      ∀ txt, Event.docEdit (DocEdit.insertText 1 txt)
          ∉ data.reverse.flatMap archive_one) ∧
    (date_year d = y →
      ∀ txt, Event.docEdit (DocEdit.insertText 1 txt)
          ∉ archive_tweets d y data) := by
  constructor
  · intro hlt
    constructor
    · unfold archive_tweets doc_update_year
      rw [if_pos hlt]
      rfl
    · intro txt
      exact insert_at_one_not_mem_flatMap data.reverse txt
  · intro heq txt hmem
    unfold archive_tweets doc_update_year at hmem
    rw [if_neg (by omega)] at hmem
    rw [List.map_nil, List.nil_append] at hmem
    exact insert_at_one_not_mem_flatMap data.reverse txt hmem

theorem C5_year_header_witness :
    archive_tweets "12/31/2023" 2024 []
      = [Event.docEdit (DocEdit.insertText 1 "2024\n")] ∧
    ∀ txt, Event.docEdit (DocEdit.insertText 1 txt)
        ∉ archive_tweets "06/01/2024" 2024 [] := by
  constructor
  · have h := ((C5_year_header "12/31/2023" 2024 []).1 (by decide)).1
    simpa using h
  · exact (C5_year_header "06/01/2024" 2024 []).2 (by decide)

/-- C2: the fetch requests only posts with id strictly greater than the
stored watermark, every watermark save of the run over the fetched page is
for an id strictly above the watermark, and a post with id at or below the
watermark is not in the fetched page at all, so no document edit of the
run corresponds to it. -/
theorem C2_no_reemit_below_watermark (d : String) (y : Nat)
    (source_posts : List Tweet) (w : Nat) :
    (∀ t ∈ get_tweets source_posts w, w < t.id) ∧
    (∀ i ∈ saved_ids (archive_tweets d y (get_tweets source_posts w)), w < i) ∧
    (∀ P : Tweet, P.id ≤ w → P ∉ get_tweets source_posts w) := by
  have hgt : ∀ t ∈ get_tweets source_posts w, w < t.id := by
    intro t ht
    rw [get_tweets, List.mem_filter] at ht
    exact of_decide_eq_true ht.2
  refine ⟨hgt, ?_, ?_⟩
  · intro i hi
    obtain ⟨t, htmem, _, hid⟩ := saved_ids_archive_mem d y _ i hi
    exact hid ▸ hgt t htmem
  · intro P hP hmem
    exact absurd (hgt P hmem) (by omega)

theorem C2_no_reemit_below_watermark_witness : (5 : Nat) < 7 :=
  (C2_no_reemit_below_watermark "06/01/2024" 2024
      [⟨7, "a\n\nb", "2024-01-02T00:00:00.000Z"⟩] 5).2.1 7 (by decide)

/-! ## Claim theorems: ordering, watermark and failure policy -/

/-- A newest-first page whose newest post does not match the pun pattern
while the two older posts do. -/
def mixed_page : List Tweet :=
  [ ⟨3, "no pun here", "2024-01-03T00:00:00.000Z"⟩,
    ⟨2, "a\n\nb", "2024-01-02T00:00:00.000Z"⟩,
    ⟨1, "c\n\nd", "2024-01-01T00:00:00.000Z"⟩ ]

/-- C3 counterexample: a newest-first page with two matching posts whose
newest post does not match ends the run with the watermark at 2, the id of
the newest matching post, not at 3, the id of the newest post. -/
theorem C3_counterexample_watermark :
    2 ≤ (mixed_page.filter pun_matches).length ∧
    final_watermark 0 (archive_tweets "06/01/2024" 2024 mixed_page) = 2 ∧
    final_watermark 0 (archive_tweets "06/01/2024" 2024 mixed_page) ≠ 3 := by
  decide

/-- C3 amended: whenever the fetched page has at least one matching post,
the run inserts the matching posts in the reverse of page order, so a
newest-first page is written oldest-first, and the final watermark is the
id of the first matching post of the page — the newest matching post, which
is the newest post whenever the newest post matches. -/
theorem C3_chronological_order (d : String) (y w0 : Nat) (data : List Tweet)
    (h : data.filter pun_matches ≠ []) :
    inserted_posts (archive_tweets d y data)
      = ((data.filter pun_matches).reverse).map rendered ∧
    ∃ newest, (data.filter pun_matches).head? = some newest ∧
      final_watermark w0 (archive_tweets d y data) = newest.id := by
  refine ⟨inserted_posts_archive d y data, ?_⟩
  cases hh : (data.filter pun_matches).head? with
  | none => exact absurd (List.head?_eq_none_iff.mp hh) h
  | some t =>
      refine ⟨t, rfl, ?_⟩
      rw [final_watermark_archive, hh]
      rfl

/-- A newest-first page of two matching posts. -/
def two_matching_page : List Tweet :=
  [ ⟨2, "a\n\nb", "2024-01-02T00:00:00.000Z"⟩,
    ⟨1, "c\n\nd", "2024-01-01T00:00:00.000Z"⟩ ]

theorem C3_chronological_order_witness :
    inserted_posts (archive_tweets "06/01/2024" 2024 two_matching_page)
      = ((two_matching_page.filter pun_matches).reverse).map rendered ∧
    ∃ newest, (two_matching_page.filter pun_matches).head? = some newest ∧
      final_watermark 0 (archive_tweets "06/01/2024" 2024 two_matching_page)
        = newest.id :=
  C3_chronological_order "06/01/2024" 2024 0 two_matching_page (by decide)

/-- A newest-first page whose newest post matches and whose older post does
not. -/
def newest_matching_page : List Tweet :=
  [ ⟨3, "a\n\nb", "2024-01-03T00:00:00.000Z"⟩,
    ⟨2, "no pun here", "2024-01-02T00:00:00.000Z"⟩ ]

/-- C10 counterexample: with a matching newest post (id 3) and a
non-matching older post (id 2), the run ends with the watermark at 3; the
non-matching post's id 2 is not above the new watermark, so the next fetch,
which requests ids strictly greater than the watermark, does not return it
— it is not fetched again, contrary to the claim's final clause. -/
theorem C10_counterexample_not_refetched :
    pun_matches ⟨2, "no pun here", "2024-01-02T00:00:00.000Z"⟩ = false ∧
    (⟨2, "no pun here", "2024-01-02T00:00:00.000Z"⟩ : Tweet)
      ∈ newest_matching_page ∧
    final_watermark 0 (archive_tweets "06/01/2024" 2024 newest_matching_page)
      = 3 ∧
    (⟨2, "no pun here", "2024-01-02T00:00:00.000Z"⟩ : Tweet)
      ∉ get_tweets newest_matching_page 3 := by
  decide

/-- C10 amended: every saved id of a run belongs to a matching post of the
page; the final watermark is the id of the first (newest) matching post of
the page, unchanged when no post matches; a non-matching post whose id no
matching post shares is never saved; and a non-matching post newer than the
watermark and all matching posts stays above the final watermark, so it is
fetched and skipped again on subsequent runs. -/
theorem C10_watermark_only_matching (d : String) (y w0 : Nat)
    (data : List Tweet) :
    (∀ i ∈ saved_ids (archive_tweets d y data),
      ∃ t, t ∈ data ∧ pun_matches t = true ∧ t.id = i) ∧
    final_watermark w0 (archive_tweets d y data)
      = ((data.filter pun_matches).head?.map Tweet.id).getD w0 ∧
    (∀ t ∈ data, pun_matches t = false →
      (∀ u ∈ data, pun_matches u = true → u.id ≠ t.id) →
      t.id ∉ saved_ids (archive_tweets d y data)) ∧
    (∀ t ∈ data, pun_matches t = false → w0 < t.id →
      (∀ u ∈ data, pun_matches u = true → u.id < t.id) →
      final_watermark w0 (archive_tweets d y data) < t.id) := by
  refine ⟨fun i hi => saved_ids_archive_mem d y data i hi,
    final_watermark_archive d y w0 data, ?_, ?_⟩
  · intro t htmem hfalse hne hsaved
    obtain ⟨u, humem, humatch, huid⟩ := saved_ids_archive_mem d y data t.id hsaved
    exact hne u humem humatch huid
  · intro t htmem hfalse hw0 hlt
    rw [final_watermark_archive]
    cases hh : (data.filter pun_matches).head? with
    | none => simpa using hw0
    | some u =>
        have humem : u ∈ data.filter pun_matches := List.mem_of_mem_head? hh
        rw [List.mem_filter] at humem
        simpa using hlt u humem.1 humem.2

theorem C10_watermark_only_matching_witness :
    final_watermark 0 (archive_tweets "06/01/2024" 2024 newest_matching_page)
      = ((newest_matching_page.filter pun_matches).head?.map Tweet.id).getD 0 :=
  (C10_watermark_only_matching "06/01/2024" 2024 0 newest_matching_page).2.1

/-- A run whose document writer starts failing after a number of calls:
the first budget document edits succeed; the next document edit raises, the
exception aborts the loop at that point, so the failing edit is not applied
and nothing after it happens.  Non-edit events in between are unaffected. -/
def truncate_at_doc_failure : Nat → List Event → List Event
  | _, [] => []
  | budget, Event.docEdit e :: rest =>
      match budget with
      | 0 => []
      | Nat.succ m => Event.docEdit e :: truncate_at_doc_failure m rest
  | budget, e :: rest => e :: truncate_at_doc_failure budget rest

theorem truncate_at_doc_failure_append (n : Nat) (ev : List Event) :
    ∃ rest, truncate_at_doc_failure n ev ++ rest = ev := by
  induction ev generalizing n with
  | nil => exact ⟨[], rfl⟩
  | cons e tail ih =>
      cases e with
      | docEdit d =>
          cases n with
          | zero => exact ⟨Event.docEdit d :: tail, rfl⟩
          | succ m =>
              obtain ⟨rest, hrest⟩ := ih m
              exact ⟨rest, by simp [truncate_at_doc_failure, hrest]⟩
      | saveLastSeenId i =>
          obtain ⟨rest, hrest⟩ := ih n
          exact ⟨rest, by simp [truncate_at_doc_failure, hrest]⟩
      | printMsg s =>
          obtain ⟨rest, hrest⟩ := ih n
          exact ⟨rest, by simp [truncate_at_doc_failure, hrest]⟩

/-- C4: for a matching post the loop body is exactly its three document
writes followed immediately by the save of its own id — the save comes
right after the post's own writes and never before them, and is not
batched at page end since every post contributes its own such block; and a
run aborted by a document-write failure is a prefix of the full run whose
saved ids are a prefix of the full run's saved ids, so watermark advances
already committed for earlier posts stand and only the remaining events
are abandoned. -/
theorem C4_save_follows_own_write (d : String) (y : Nat) (data : List Tweet)
    (n : Nat) (t : Tweet) (hm : pun_matches t = true) :
    (∃ s p, pun_format_regex_match t.text = some (s, p) ∧
      archive_one t
        = [ Event.docEdit (DocEdit.insertText 6
              (format_tweet (strftime_date t.created_at) s p)),
            Event.docEdit (DocEdit.paragraphStyle 6
              ((strftime_date t.created_at ++ s ++ p).length + ITALICS_OFFSET)),
            Event.docEdit (DocEdit.italicize
              ((strftime_date t.created_at ++ s).length + ITALICS_OFFSET)
              ((strftime_date t.created_at ++ s ++ p).length + ITALICS_OFFSET)),
            Event.saveLastSeenId t.id ]) ∧
    (∃ rest, truncate_at_doc_failure n (archive_tweets d y data) ++ rest
        = archive_tweets d y data) ∧
    (∃ laterSaves,
      saved_ids (truncate_at_doc_failure n (archive_tweets d y data))
          ++ laterSaves
        = saved_ids (archive_tweets d y data)) := by
  obtain ⟨rest, hrest⟩ :=
    truncate_at_doc_failure_append n (archive_tweets d y data)
  refine ⟨?_, ⟨rest, hrest⟩, ⟨saved_ids rest, ?_⟩⟩
  · rw [pun_matches] at hm
    cases hsp : pun_format_regex_match t.text with
    | none => rw [hsp] at hm; simp at hm
    | some sp =>
        cases sp with
        | mk s p =>
            exact ⟨s, p, rfl, by rw [archive_one, hsp]; rfl⟩
  · rw [← saved_ids_append, hrest]

theorem C4_save_follows_own_write_witness :
    ∃ rest, truncate_at_doc_failure 3
        (archive_tweets "06/01/2024" 2024 two_matching_page) ++ rest
      = archive_tweets "06/01/2024" 2024 two_matching_page :=
  (C4_save_follows_own_write "06/01/2024" 2024 two_matching_page 3
    ⟨2, "a\n\nb", "2024-01-02T00:00:00.000Z"⟩ (by decide)).2.1

/-! ## Claim theorems: the pattern matcher -/

theorem takeWhile_append_cons {α : Type} {p : α → Bool} (xs : List α)
    (y : α) (rest : List α) (hall : ∀ a ∈ xs, p a = true)
    (hy : p y = false) : (xs ++ y :: rest).takeWhile p = xs := by
  induction xs with
  | nil => simp [List.takeWhile_cons, hy]
  | cons a t ih =>
      have ha := hall a (List.mem_cons_self a t)
      simp only [List.cons_append, List.takeWhile_cons, ha, if_true]
      rw [ih (fun b hb => hall b (List.mem_cons_of_mem a hb))]

theorem dropWhile_append_cons {α : Type} {p : α → Bool} (xs : List α)
    (y : α) (rest : List α) (hall : ∀ a ∈ xs, p a = true)
    (hy : p y = false) : (xs ++ y :: rest).dropWhile p = y :: rest := by
  induction xs with
  | nil => simp [List.dropWhile_cons, hy]
  | cons a t ih =>
      have ha := hall a (List.mem_cons_self a t)
      simp only [List.cons_append, List.dropWhile_cons, ha, if_true]
      exact ih (fun b hb => hall b (List.mem_cons_of_mem a hb))

theorem takeWhile_of_all {α : Type} {p : α → Bool} (xs : List α)
    (hall : ∀ a ∈ xs, p a = true) : xs.takeWhile p = xs := by
  induction xs with
  | nil => rfl
  | cons a t ih =>
      have ha := hall a (List.mem_cons_self a t)
      simp only [List.takeWhile_cons, ha, if_true]
      rw [ih (fun b hb => hall b (List.mem_cons_of_mem a hb))]

theorem dropWhile_of_all {α : Type} {p : α → Bool} (xs : List α)
    (hall : ∀ a ∈ xs, p a = true) : xs.dropWhile p = [] := by
  induction xs with
  | nil => rfl
  | cons a t ih =>
      have ha := hall a (List.mem_cons_self a t)
      simp only [List.dropWhile_cons, ha, if_true]
      exact ih (fun b hb => hall b (List.mem_cons_of_mem a hb))

/-- Modelled from the spec's words, for comparison with the matcher: the
position of the last blank-line separator, as the content before and after
it.  Some (pre, post) when the character list contains two consecutive
newlines, splitting at the last such pair. -/
def last_blank_split : List Char → Option (List Char × List Char)
  | [] => none
  | c :: rest =>
      match last_blank_split rest with
      | some (pre, post) => some (c :: pre, post)
      | none =>
          match c, rest with
          | '\n', '\n' :: tail => some ([], tail)
          | _, _ => none

/-- Modelled from the spec's words: the text contains at least one
blank-line separator and the last such separator has non-empty content on
both sides. -/
def spec_match_condition (text : String) : Bool :=
  match last_blank_split text.toList with
  | some (pre, post) => !pre.isEmpty && !post.isEmpty
  | none => false

/-- C1 counterexample: the text a, blank line, b, blank line, c has a last
blank-line separator with non-empty content on both sides — per the claim
the matcher should return the pair with setup a-blank-b and punchline c —
yet the regex returns none, because its dot never matches a newline, so the
setup group cannot span a blank line. -/
theorem C1_counterexample_multiblock :
    spec_match_condition "a\n\nb\n\nc" = true ∧
    pun_format_regex_match "a\n\nb\n\nc" = none := by
  decide

/-- C1 amended: the matcher returns a parsed pair exactly when the text is
a single non-empty newline-free setup line, a blank-line separator, and a
non-empty newline-free punchline line optionally followed by one trailing
newline; in particular text with no blank line, text whose setup spans
several lines, and text with more than one blank-line-separated block all
return none. -/
theorem C1_match_characterization (text s p : String) :
    pun_format_regex_match text = some (s, p) ↔
      s.toList ≠ [] ∧ p.toList ≠ [] ∧ '\n' ∉ s.toList ∧ '\n' ∉ p.toList ∧
      (text.toList = s.toList ++ '\n' :: '\n' :: p.toList ∨
       text.toList = s.toList ++ '\n' :: '\n' :: p.toList ++ ['\n']) := by
  constructor
  · intro h
    unfold pun_format_regex_match at h
    split at h
    case h_2 => exact absurd h (by simp)
    case h_1 tail heq =>
      split at h
      case isFalse => exact absurd h (by simp)
      case isTrue hguard =>
        obtain ⟨hsetup, hpunch, hrest⟩ := hguard
        have hpair :
            (String.mk (text.toList.takeWhile (fun c => c ≠ '\n')),
             String.mk (tail.takeWhile (fun c => c ≠ '\n'))) = (s, p) :=
          Option.some.inj h
        have hs : String.mk (text.toList.takeWhile (fun c => c ≠ '\n')) = s :=
          congrArg Prod.fst hpair
        have hp : String.mk (tail.takeWhile (fun c => c ≠ '\n')) = p :=
          congrArg Prod.snd hpair
        have hsl : s.toList = text.toList.takeWhile (fun c => c ≠ '\n') := by
          rw [← hs]
          rfl
        have hpl : p.toList = tail.takeWhile (fun c => c ≠ '\n') := by
          rw [← hp]
          rfl
        have hsnl : '\n' ∉ s.toList := by
          rw [hsl]
          intro hmem
          have := List.mem_takeWhile_imp hmem
          simp at this
        have hpnl : '\n' ∉ p.toList := by
          rw [hpl]
          intro hmem
          have := List.mem_takeWhile_imp hmem
          simp at this
        refine ⟨by rw [hsl]; exact hsetup, by rw [hpl]; exact hpunch,
          hsnl, hpnl, ?_⟩
        have htext : text.toList = s.toList ++ '\n' :: '\n' :: tail := by
          rw [hsl, ← heq, List.takeWhile_append_dropWhile]
        have htail : tail = p.toList
            ++ tail.dropWhile (fun c => c ≠ '\n') := by
          rw [hpl, List.takeWhile_append_dropWhile]
        cases hrest with
        | inl h0 =>
            left
            rw [htext, htail, h0, List.append_nil]
        | inr h1 =>
            right
            rw [htext, htail, h1]
            simp
  · intro hcond
    obtain ⟨hs, hp, hsnl, hpnl, hcase⟩ := hcond
    have hallS : ∀ a ∈ s.toList, (fun c => decide (c ≠ '\n')) a = true := by
      intro a ha
      simp only [decide_eq_true_eq]
      intro e
      exact hsnl (e ▸ ha)
    have hallP : ∀ a ∈ p.toList, (fun c => decide (c ≠ '\n')) a = true := by
      intro a ha
      simp only [decide_eq_true_eq]
      intro e
      exact hpnl (e ▸ ha)
    have hnl : (fun c => decide (c ≠ '\n')) '\n' = false := by simp
    cases hcase with
    | inl hcase1 =>
        unfold pun_format_regex_match
        rw [hcase1, dropWhile_append_cons s.toList '\n' ('\n' :: p.toList)
          hallS hnl]
        split
        case h_2 hne => exact absurd rfl (hne p.toList)
        case h_1 e1 e2 e3 =>
          have e4 : p.toList = e2 := by simpa using e3
          subst e4
          rw [if_pos]
          · rw [takeWhile_append_cons s.toList '\n' ('\n' :: p.toList)
              hallS hnl, takeWhile_of_all p.toList hallP]
            rfl
          · refine ⟨?_, ?_, Or.inl ?_⟩
            · rw [takeWhile_append_cons s.toList '\n' ('\n' :: p.toList)
                hallS hnl]
              exact hs
            · rw [takeWhile_of_all p.toList hallP]
              exact hp
            · exact dropWhile_of_all p.toList hallP
    | inr hcase2 =>
        unfold pun_format_regex_match
        rw [hcase2, List.append_assoc, List.cons_append, List.cons_append,
          dropWhile_append_cons s.toList '\n'
            ('\n' :: (p.toList ++ ['\n'])) hallS hnl]
        split
        case h_2 hne => exact absurd rfl (hne (p.toList ++ ['\n']))
        case h_1 e1 e2 e3 =>
          have e4 : p.toList ++ ['\n'] = e2 := by simpa using e3
          subst e4
          rw [if_pos]
          · rw [takeWhile_append_cons s.toList '\n'
              ('\n' :: (p.toList ++ ['\n'])) hallS hnl,
              takeWhile_append_cons p.toList '\n' [] hallP hnl]
            rfl
          · refine ⟨?_, ?_, Or.inr ?_⟩
            · rw [takeWhile_append_cons s.toList '\n'
                ('\n' :: (p.toList ++ ['\n'])) hallS hnl]
              exact hs
            · rw [takeWhile_append_cons p.toList '\n' [] hallP hnl]
              exact hp
            · rw [dropWhile_append_cons p.toList '\n' [] hallP hnl]

theorem C1_match_characterization_witness :
    pun_format_regex_match "setup line\n\npunch line\n"
      = some ("setup line", "punch line") :=
  (C1_match_characterization "setup line\n\npunch line\n"
    "setup line" "punch line").mpr (by decide)

/-! ## Claim theorems: formatter round-trip -/

/-- Modelled from the spec's words: split a character list into lines at
newline characters, used to state the round-trip recovery procedure. -/
def splitOnNl : List Char → List (List Char)
  | [] => [[]]
  | c :: rest =>
      if c = '\n' then [] :: splitOnNl rest
      else
        match splitOnNl rest with
        | [] => [[c]]
        | l :: ls => (c :: l) :: ls

/-- Modelled from the spec's words: the round-trip recovery procedure —
split the formatted output into lines, take the third line, and remove its
leading tab character. -/
def punchline_roundtrip (d s p : String) : Option String :=
  ((splitOnNl (format_tweet d s p).toList)[2]?).map
    (fun l => String.mk (l.drop 1))

theorem format_tweet_toList (d s p : String) :
    (format_tweet d s p).toList
      = d.toList ++ '\n' :: (s.toList ++ '\n' :: '\t'
          :: (p.toList ++ '\n' :: '\n' :: [])) := by
  have h1 : ("\n" : String).data = ['\n'] := rfl
  have h2 : ("\n\t" : String).data = ['\n', '\t'] := rfl
  have h3 : ("\n\n" : String).data = ['\n', '\n'] := rfl
  simp [format_tweet, String.toList, String.data_append, h1, h2, h3]

theorem splitOnNl_append (xs rest : List Char) (h : '\n' ∉ xs) :
    splitOnNl (xs ++ '\n' :: rest) = xs :: splitOnNl rest := by
  induction xs with
  | nil => simp [splitOnNl]
  | cons c t ih =>
      have hc : ¬ (c = '\n') := by
        intro e
        exact h (by rw [e]; exact List.mem_cons_self _ _)
      have ht : '\n' ∉ t := fun m => h (List.mem_cons_of_mem _ m)
      rw [List.cons_append]
      simp only [splitOnNl]
      rw [if_neg hc, ih ht]

/-- C8 counterexample: with a setup containing a newline, the formatted
output's third line is not the punchline, so the round-trip recovery does
not return the original punchline even though the format equality itself
still holds. -/
theorem C8_counterexample_multiline_setup :
    punchline_roundtrip "01/01/2024" "a\nb" "c" ≠ some "c" ∧
    format_tweet "01/01/2024" "a\nb" "c" = "01/01/2024\na\nb\n\tc\n\n" := by
  decide

/-- C8 amended: for every date, setup and punchline, the formatter returns
exactly the template date, newline, setup, newline-tab, punchline, two
newlines; and whenever date, setup and punchline contain no newline — as
always holds for the strings the matcher and the date renderer produce —
splitting the output into lines and removing the leading tab of the third
line recovers the exact original punchline. -/
theorem C8_format_and_roundtrip (d s p : String) :
    format_tweet d s p = d ++ "\n" ++ s ++ "\n\t" ++ p ++ "\n\n" ∧
    ('\n' ∉ d.toList → '\n' ∉ s.toList → '\n' ∉ p.toList →
      punchline_roundtrip d s p = some p) := by
  refine ⟨rfl, ?_⟩
  intro hd hs hp
  have htab : '\n' ∉ ('\t' :: p.toList) := by
    intro m
    rcases List.mem_cons.mp m with h1 | h2
    · exact absurd h1 (by decide)
    · exact hp h2
  unfold punchline_roundtrip
  rw [format_tweet_toList, splitOnNl_append d.toList _ hd,
    splitOnNl_append s.toList _ hs, ← List.cons_append,
    splitOnNl_append ('\t' :: p.toList) ('\n' :: []) htab]
  simp [splitOnNl]

theorem C8_format_and_roundtrip_witness :
    punchline_roundtrip "01/02/2024" "Why did X" "Because Y"
      = some "Because Y" :=
  (C8_format_and_roundtrip "01/02/2024" "Why did X" "Because Y").2
    (by decide) (by decide) (by decide)
